import Mathlib

/-!
Verification of the frame-acquisition pipeline in `camera/capture.c`
(C270 web camera driver, V4L2 API) against its natural-language
specification.

The C code is shallowly embedded: pure computations (the YUV→RGB
transform, the conversion loop, the PPM header and filename
construction) become Lean functions on `Nat`/`Int`/`List`; the
driver-facing control flow (`init_mmap`, `read_frame`, `mainloop`,
the `dump_ppm` write loop) becomes functions over explicit outcome
traces, with process termination via `exit`/`errno_exit` modelled as
a distinguished fatal result carrying the diagnostic string.
-/

namespace Capture

/-! ### YUV→RGB conversion (`yuv2rgb`, capture.c lines 497–521) -/

/-- Arithmetic shift right by 8 bits on a signed int (`>> 8` in the C
source under gcc semantics), i.e. floor division by 256. -/
def shr8 (x : Int) : Int := Int.fdiv x 256

/-- The clipping sequence of `yuv2rgb`: first the upper bound
(`if (r1 > 255) r1 = 255;`), then the lower bound
(`if (r1 < 0) r1 = 0;`). -/
def clip (x : Int) : Int :=
  let x1 := if x > 255 then 255 else x
  if x1 < 0 then 0 else x1

/-- `yuv2rgb` from capture.c: the integer transform replacing floating
point coefficients, followed by clipping, with the three results stored
through `unsigned char` pointers (hence `Int.toNat`, exact because the
clipped values lie in [0,255]). -/
def yuv2rgb (y u v : Int) : Nat × Nat × Nat :=
  let c := y - 16
  let d := u - 128
  let e := v - 128
  let r1 := shr8 (298 * c + 409 * e + 128)
  let g1 := shr8 (298 * c - 100 * d - 208 * e + 128)
  let b1 := shr8 (298 * c + 516 * d + 128)
  ((clip r1).toNat, (clip g1).toNat, (clip b1).toNat)

/-- Saturation to [0,255] as the spec words it ("`clamp8` saturates to
[0,255]"). -/
def clamp8 (x : Int) : Int := max 0 (min 255 x)

/-- The conversion transform exactly as the specification states it:
`c = luma - 16`, `d = chromaU - 128`, `e = chromaV - 128`, then the
three clamped linear combinations shifted right by 8. -/
def yuv2rgbSpec (y u v : Int) : Nat × Nat × Nat :=
  let c := y - 16
  let d := u - 128
  let e := v - 128
  ((clamp8 (shr8 (298 * c + 409 * e + 128))).toNat,
   (clamp8 (shr8 (298 * c - 100 * d - 208 * e + 128))).toNat,
   (clamp8 (shr8 (298 * c + 516 * d + 128))).toNat)

theorem clip_eq_clamp8 (x : Int) : clip x = clamp8 x := by
  show (if (if x > 255 then 255 else x) < 0 then 0 else (if x > 255 then 255 else x)) = clamp8 x
  unfold clamp8
  split_ifs <;> omega

theorem yuv2rgb_eq_spec (y u v : Int) : yuv2rgb y u v = yuv2rgbSpec y u v := by
  unfold yuv2rgb yuv2rgbSpec
  simp only [clip_eq_clamp8]

theorem clamp8_toNat_le (x : Int) : (clamp8 x).toNat ≤ 255 := by
  unfold clamp8
  omega

/-! ### The YUYV→RGB loop of `process_image` (capture.c lines 567–572)

The C loop walks the input buffer by index (`for(i=0, newi=0; i<size;
i=i+4, newi=newi+6)`), reading `pptr[i] .. pptr[i+3]` and writing six
bytes into `bigbuffer` per step.  We model the input buffer as a byte
function `p : Nat → Nat` together with its size, and the produced
`bigbuffer` contents as the list of bytes written, in order. -/

/-- One execution of the conversion loop from loop index `i` on: while
`i < size`, read bytes `i, i+1, i+2, i+3` as `y_temp, u_temp, y2_temp,
v_temp` and emit two RGB triples, the second reusing `u_temp`/`v_temp`. -/
def yuyvLoop (p : Nat → Nat) (size i : Nat) : List Nat :=
  if i < size then
    (yuv2rgb (p i) (p (i+1)) (p (i+3))).1 ::
    (yuv2rgb (p i) (p (i+1)) (p (i+3))).2.1 ::
    (yuv2rgb (p i) (p (i+1)) (p (i+3))).2.2 ::
    (yuv2rgb (p (i+2)) (p (i+1)) (p (i+3))).1 ::
    (yuv2rgb (p (i+2)) (p (i+1)) (p (i+3))).2.1 ::
    (yuv2rgb (p (i+2)) (p (i+1)) (p (i+3))).2.2 ::
    yuyvLoop p size (i+4)
  else []
termination_by size - i
decreasing_by omega

/-- The YUYV branch of `process_image` applied to an input frame given
as a byte list: run the loop over the frame with `size` its length. -/
def process_yuyv (frame : List Nat) : List Nat :=
  yuyvLoop (fun k => frame.getD k 0) frame.length 0

/-- The conversion as the specification states it: input bytes consumed
in groups of 4 laid out as (luma₀, chroma-U, luma₁, chroma-V), two RGB
triples per group, the chroma pair shared between the two pixels. -/
def convertSpec : List Nat → List Nat
  | y0 :: u :: y1 :: v :: rest =>
      (yuv2rgbSpec y0 u v).1 :: (yuv2rgbSpec y0 u v).2.1 :: (yuv2rgbSpec y0 u v).2.2 ::
      (yuv2rgbSpec y1 u v).1 :: (yuv2rgbSpec y1 u v).2.1 :: (yuv2rgbSpec y1 u v).2.2 ::
      convertSpec rest
  | _ => []

theorem yuyvLoop_eq_convertSpec (l : List Nat) (p : Nat → Nat) (i : Nat)
    (hl : l.length % 4 = 0)
    (hp : ∀ k, k < l.length → p (i + k) = l.getD k 0) :
    yuyvLoop p (i + l.length) i = convertSpec l := by
  match l with
  | [] =>
      rw [yuyvLoop]
      simp [convertSpec]
  | [_] => simp at hl
  | [_, _] => simp at hl
  | [_, _, _] => simp at hl
  | y0 :: u :: y1 :: v :: rest =>
      have h0 := hp 0 (by simp)
      have h1 := hp 1 (by simp)
      have h2 := hp 2 (by simp)
      have h3 := hp 3 (by simp)
      simp only [List.getD_cons_zero, List.getD_cons_succ, Nat.add_zero] at h0 h1 h2 h3
      have hrest : rest.length % 4 = 0 := by
        simp only [List.length_cons] at hl
        omega
      have hrec := yuyvLoop_eq_convertSpec rest p (i + 4) hrest (fun k hk => by
        have h := hp (4 + k) (by simp only [List.length_cons]; omega)
        simpa [List.getD_cons_succ, Nat.add_assoc, Nat.add_comm 4 k,
               Nat.add_left_comm] using h)
      rw [yuyvLoop]
      have hlt : i < i + (y0 :: u :: y1 :: v :: rest).length := by
        simp only [List.length_cons]; omega
      rw [if_pos hlt]
      have hsz : i + (y0 :: u :: y1 :: v :: rest).length = (i + 4) + rest.length := by
        simp only [List.length_cons]; omega
      rw [hsz, h0, h1, h2, h3, hrec, yuv2rgb_eq_spec, yuv2rgb_eq_spec, convertSpec]

theorem process_yuyv_eq_convertSpec (frame : List Nat) (h : frame.length % 4 = 0) :
    process_yuyv frame = convertSpec frame := by
  have hmain := yuyvLoop_eq_convertSpec frame (fun k => frame.getD k 0) 0 h
    (fun k _ => by simp)
  simpa [process_yuyv] using hmain

theorem convertSpec_length (l : List Nat) (hl : l.length % 4 = 0) :
    2 * (convertSpec l).length = 3 * l.length := by
  match l with
  | [] => simp [convertSpec]
  | [_] => simp at hl
  | [_, _] => simp at hl
  | [_, _, _] => simp at hl
  | y0 :: u :: y1 :: v :: rest =>
      have hrest : rest.length % 4 = 0 := by
        simp only [List.length_cons] at hl; omega
      have hrec := convertSpec_length rest hrest
      simp only [convertSpec, List.length_cons]
      omega

theorem yuv2rgbSpec_le (y u v : Int) :
    (yuv2rgbSpec y u v).1 ≤ 255 ∧ (yuv2rgbSpec y u v).2.1 ≤ 255 ∧
    (yuv2rgbSpec y u v).2.2 ≤ 255 := by
  simp only [yuv2rgbSpec]
  exact ⟨clamp8_toNat_le _, clamp8_toNat_le _, clamp8_toNat_le _⟩

theorem convertSpec_mem_le (l : List Nat) : ∀ b ∈ convertSpec l, b ≤ 255 := by
  match l with
  | [] => simp [convertSpec]
  | [_] => simp [convertSpec]
  | [_, _] => simp [convertSpec]
  | [_, _, _] => simp [convertSpec]
  | y0 :: u :: y1 :: v :: rest =>
      intro b hb
      simp only [convertSpec, List.mem_cons] at hb
      rcases hb with h | h | h | h | h | h | h
      · exact h ▸ (yuv2rgbSpec_le y0 u v).1
      · exact h ▸ (yuv2rgbSpec_le y0 u v).2.1
      · exact h ▸ (yuv2rgbSpec_le y0 u v).2.2
      · exact h ▸ (yuv2rgbSpec_le y1 u v).1
      · exact h ▸ (yuv2rgbSpec_le y1 u v).2.1
      · exact h ▸ (yuv2rgbSpec_le y1 u v).2.2
      · exact convertSpec_mem_le rest b h

/-- C1: for every subsampled-422 input (length a multiple of 4), the
conversion loop of `process_image` consumes bytes in groups of 4 laid
out as (luma₀, chroma-U, luma₁, chroma-V) and emits two RGB triples per
group via the integer transform with clamping, the chroma pair shared
between the two output pixels — i.e. the code's indexed loop equals the
spec's group-wise transform. -/
theorem yuyv_conversion_matches_spec (frame : List Nat)
    (h : frame.length % 4 = 0) :
    process_yuyv frame = convertSpec frame :=
  process_yuyv_eq_convertSpec frame h

theorem yuyv_conversion_matches_spec_witness :
    process_yuyv [16, 128, 16, 128] = convertSpec [16, 128, 16, 128] :=
  yuyv_conversion_matches_spec [16, 128, 16, 128] (by decide)

/-- C2: for every valid subsampled-422 input byte sequence (length a
multiple of 4), the conversion produces exactly 1.5× as many output
bytes (4 input bytes yield 6 output bytes), and every output byte lies
in [0,255]. -/
theorem yuyv_output_ratio_and_range (frame : List Nat)
    (h : frame.length % 4 = 0) :
    2 * (process_yuyv frame).length = 3 * frame.length ∧
    ∀ b ∈ process_yuyv frame, b ≤ 255 := by
  rw [process_yuyv_eq_convertSpec frame h]
  exact ⟨convertSpec_length frame h, convertSpec_mem_le frame⟩

theorem yuyv_output_ratio_and_range_witness :
    2 * (process_yuyv [16, 128, 16, 128]).length = 3 * ([16, 128, 16, 128] : List Nat).length ∧
    ∀ b ∈ process_yuyv [16, 128, 16, 128], b ≤ 255 :=
  yuyv_output_ratio_and_range [16, 128, 16, 128] (by decide)

/-! ### PPM header and artifact contents (`ppm_header`, `dump_ppm`,
capture.c lines 439–465) -/

def HRES : Nat := 320
def VRES : Nat := 240
def HRES_STR : String := "320"
def VRES_STR : String := "240"

/-- The placeholder comment text between `#` and the newline in the
`ppm_header` initializer. -/
def headerComment : String := "9999999999 sec 9999999999 msec "

/-- `ppm_header` from capture.c, with the adjacent string literals
concatenated as the C preprocessor does:
`"P6\n#9999999999 sec 9999999999 msec \n" HRES_STR " " VRES_STR "\n255\n"`. -/
def ppm_header : String :=
  "P6\n#" ++ headerComment ++ "\n" ++ HRES_STR ++ " " ++ VRES_STR ++ "\n255\n"

/-- The header bytes written by `dump_ppm` (`sizeof(ppm_header)-1`
bytes, the terminating NUL excluded). -/
def ppm_bytes : List Nat := ppm_header.toList.map Char.toNat

/-- The payload handed to `dump_ppm` on the YUYV path of
`process_image`: the first `(size*6)/4` bytes of `bigbuffer`, that is,
of the conversion loop's output. -/
def yuyv_payload (frame : List Nat) : List Nat :=
  (process_yuyv frame).take (frame.length * 6 / 4)

/-- Contents of the file produced by one `dump_ppm` call: the header
bytes immediately followed by the payload bytes. -/
def dump_ppm_content (payload : List Nat) : List Nat := ppm_bytes ++ payload

/-! ### Output filename construction (`dump_ppm`, capture.c lines
440–448)

`ppm_dumpname` is the mutable template `"frames/test00000000.ppm"`.
`snprintf(&ppm_dumpname[4], 9, "%08d", tag)` overwrites 8 bytes at
offset 4 with the zero-padded decimal digits of `tag` and places a NUL
at offset 12; `strncat(&ppm_dumpname[12], ".ppm", 5)` then appends
`".ppm"` plus a NUL at that offset.  The filename handed to `open` is
the buffer up to its first NUL. -/

def ppm_dumpname_template : List Char := "frames/test00000000.ppm".toList

/-- Overwrite the bytes of `buf` starting at `pos` with `s`. -/
def writeAt (buf : List Char) (pos : Nat) (s : List Char) : List Char :=
  buf.take pos ++ s ++ buf.drop (pos + s.length)

/-- The 8 zero-padded decimal digits produced by `"%08d"` for
`tag < 10^8`. -/
def digits8 (tag : Nat) : List Char :=
  (List.range 8).reverse.map (fun k => Char.ofNat (48 + tag / 10 ^ k % 10))

/-- The `ppm_dumpname` buffer after the `snprintf` and `strncat`
mutations of `dump_ppm`. -/
def dumpname_buf (tag : Nat) : List Char :=
  writeAt (writeAt ppm_dumpname_template 4 (digits8 tag ++ [Char.ofNat 0]))
    12 (".ppm".toList ++ [Char.ofNat 0])

/-- The filename `dump_ppm` opens: the mutated buffer up to its first
NUL byte. -/
def ppm_filename (tag : Nat) : List Char :=
  (dumpname_buf tag).takeWhile (fun c => c ≠ Char.ofNat 0)

/-! ### `process_image` (capture.c lines 541–588)

State observable from one `process_image` call: the global `framecnt`
and the sequence of files written so far (filename, contents).
`framecnt` is incremented before the pixel format is examined, and the
incremented value is the `tag` passed to `dump_ppm`. -/

inductive PixFmt
  | yuyv
  | rgb24
  | other
deriving DecidableEq

structure CamState where
  framecnt : Nat
  files : List (List Char × List Nat)
deriving DecidableEq

def process_image (fmtTag : PixFmt) (p : List Nat) (st : CamState) : CamState :=
  let fc := st.framecnt + 1
  match fmtTag with
  | .yuyv =>
      { framecnt := fc,
        files := st.files ++ [(ppm_filename fc, dump_ppm_content (yuyv_payload p))] }
  | .rgb24 =>
      { framecnt := fc,
        files := st.files ++ [(ppm_filename fc, dump_ppm_content p)] }
  | .other => { framecnt := fc, files := st.files }

/-- C3 (counterexample): the claimed 64-character comment field does not
exist in `ppm_header` — the header is 48 bytes in total, so no
decomposition `"P6\n#" ++ c ++ "\n320 240\n255\n"` with `c` of length
64 is possible. -/
theorem ppm_header_comment_field_not_64 :
    ¬ ∃ c : List Char, c.length = 64 ∧
      ppm_header.toList = "P6\n#".toList ++ c ++ "\n320 240\n255\n".toList := by
  rintro ⟨c, hc, he⟩
  have hlen := congrArg List.length he
  have h48 : ppm_header.toList.length = 48 := by decide
  have h4 : ("P6\n#".toList).length = 4 := by decide
  have h13 : ("\n320 240\n255\n".toList).length = 13 := by decide
  rw [h48] at hlen
  simp only [List.length_append, h4, h13, hc] at hlen
  omega

/-- C3 (amended): every output artifact consists of the bit-exact ASCII
header `P6` newline, a `#` comment field of 31 fixed-width characters,
newline, `320 240` newline, `255` newline, immediately followed by
`width*height*3` raw RGB bytes in row-major order (here shown for a
full subsampled-422 frame of the negotiated 320×240 geometry). -/
theorem ppm_artifact_format (p : List Nat) (hp : p.length = 2 * (HRES * VRES)) :
    ppm_header.toList =
      "P6\n".toList ++ "#".toList ++ headerComment.toList ++ "\n".toList ++
        "320 240".toList ++ "\n".toList ++ "255".toList ++ "\n".toList ∧
    headerComment.length = 31 ∧
    dump_ppm_content (yuyv_payload p) = ppm_bytes ++ process_yuyv p ∧
    (process_yuyv p).length = HRES * VRES * 3 := by
  have hHV : 2 * (HRES * VRES) = 153600 := by decide
  rw [hHV] at hp
  have h4 : p.length % 4 = 0 := by omega
  have hlen : 2 * (process_yuyv p).length = 3 * p.length := by
    rw [process_yuyv_eq_convertSpec p h4]
    exact convertSpec_length p h4
  have hlen2 : (process_yuyv p).length = 230400 := by omega
  refine ⟨by decide, by decide, ?_, ?_⟩
  · unfold dump_ppm_content yuyv_payload
    rw [hp]
    have : (153600 * 6 / 4 : Nat) = 230400 := by decide
    rw [this, List.take_of_length_le (by omega)]
  · rw [hlen2]; decide

theorem ppm_artifact_format_witness :
    ppm_header.toList =
      "P6\n".toList ++ "#".toList ++ headerComment.toList ++ "\n".toList ++
        "320 240".toList ++ "\n".toList ++ "255".toList ++ "\n".toList ∧
    headerComment.length = 31 ∧
    dump_ppm_content (yuyv_payload (List.replicate (2 * (HRES * VRES)) 0)) =
      ppm_bytes ++ process_yuyv (List.replicate (2 * (HRES * VRES)) 0) ∧
    (process_yuyv (List.replicate (2 * (HRES * VRES)) 0)).length = HRES * VRES * 3 :=
  ppm_artifact_format (List.replicate (2 * (HRES * VRES)) 0) (by simp)

/-- C9 (the code evaluated at the failing input): the artifact written
for frame 1 is named `fram00000001.ppm` in the current working
directory — the `snprintf`/`strncat` offsets 4 and 12 truncate the
`frames/test00000000.ppm` template, so the fixed `frames/` output
directory (and `test` prefix) of the template never appears in the
opened path. -/
theorem ppm_filename_drops_output_directory :
    ppm_filename 1 = "fram00000001.ppm".toList ∧
    ppm_filename 1 ≠ "frames/test00000001.ppm".toList := by
  constructor
  · decide
  · decide

/-- C10: on every invocation of `process_image`, the frame counter is
incremented exactly once, before the pixel format is examined (the
emitted file, when there is one, is already tagged with the incremented
value); when the pixel format is neither YUYV nor RGB24 the counter
still advances but no output file is written. -/
theorem process_image_counter_and_emission (fmtTag : PixFmt) (p : List Nat)
    (st : CamState) :
    (process_image fmtTag p st).framecnt = st.framecnt + 1 ∧
    (fmtTag ≠ .other →
      (process_image fmtTag p st).files.map Prod.fst =
        st.files.map Prod.fst ++ [ppm_filename (st.framecnt + 1)]) ∧
    (fmtTag = .other → (process_image fmtTag p st).files = st.files) := by
  cases fmtTag <;> simp [process_image]

theorem process_image_counter_and_emission_witness :
    (process_image .other [] ⟨0, []⟩).framecnt = 0 + 1 ∧
    (process_image .other [] ⟨0, []⟩).files = ([] : List (List Char × List Nat)) :=
  ⟨(process_image_counter_and_emission .other [] ⟨0, []⟩).1,
   (process_image_counter_and_emission .other [] ⟨0, []⟩).2.2 rfl⟩

/-! ### `read_frame` (capture.c lines 605–640)

`read_frame` attempts a `VIDIOC_DQBUF`; `EAGAIN` and `EIO` make it
return 0 (no frame, state untouched); any other `errno` is fatal via
`errno_exit("VIDIOC_DQBUF")`.  On a successful dequeue it processes the
buffer and re-queues it (`VIDIOC_QBUF`; a re-queue failure is fatal),
returning 1. -/

inductive DequeueResult
  | eagain
  | eio
  | err_other
  | filled (bytes : List Nat)

inductive ReadResult
  | fatal_exit (diag : String)
  | no_frame
  | frame_done
deriving DecidableEq

def read_frame (fmtTag : PixFmt) (d : DequeueResult) (requeueOk : Bool)
    (st : CamState) : ReadResult × CamState :=
  match d with
  | .eagain => (.no_frame, st)
  | .eio => (.no_frame, st)
  | .err_other => (.fatal_exit "VIDIOC_DQBUF", st)
  | .filled bytes =>
      let st1 := process_image fmtTag bytes st
      if requeueOk then (.frame_done, st1) else (.fatal_exit "VIDIOC_QBUF", st1)

/-! ### `mainloop` (capture.c lines 657–712)

One inner iteration is: `select` on the device descriptor with a
2-second timeout — `EINTR` retries the wait unchanged, any other
`select` failure is `errno_exit("select")`, a zero result is
`exit(EXIT_FAILURE)` after "select timeout" — then, on readiness, one
`read_frame` attempt.  A `read_frame` returning 0 (EAGAIN/EIO) neither
decrements `count` nor leaves the inner loop; a return of 1 decrements
`count` and breaks to the outer `while (count > 0)`.  We model a run by
the trace of per-iteration outcomes. -/

def select_timeout_sec : Nat := 2

def EXIT_FAILURE : Nat := 1

/-- Outcome of one inner-loop iteration: the `select` result, fused
with the dequeue outcome when `select` reported readiness. -/
inductive Step
  | selEintr
  | selErrOther
  | selTimeout
  | readyAgain
  | readyEio
  | readyErrOther
  | readySuccess
deriving DecidableEq

/-- Result of a `mainloop` run: clean termination with the number of
successfully processed frames, process-terminating failure (diagnostic,
exit code, frames processed so far), or trace exhaustion (the model ran
out of supplied outcomes while the loop was still waiting). -/
inductive LoopResult
  | finished (frames : Nat)
  | fatal (diag : String) (code : Nat) (frames : Nat)
  | starved (frames : Nat)
deriving DecidableEq

def mainloopRun : List Step → Nat → Nat → LoopResult
  | _, 0, frames => .finished frames
  | [], _ + 1, frames => .starved frames
  | s :: rest, count + 1, frames =>
      match s with
      | .selEintr => mainloopRun rest (count + 1) frames
      | .selErrOther => .fatal "select" EXIT_FAILURE frames
      | .selTimeout => .fatal "select timeout" EXIT_FAILURE frames
      | .readyAgain => mainloopRun rest (count + 1) frames
      | .readyEio => mainloopRun rest (count + 1) frames
      | .readyErrOther => .fatal "VIDIOC_DQBUF" EXIT_FAILURE frames
      | .readySuccess => mainloopRun rest count (frames + 1)

/-- The configured frame budget (`frame_count` global). -/
def frame_count : Nat := 30

def fatalStep : Step → Bool
  | .selErrOther => true
  | .selTimeout => true
  | .readyErrOther => true
  | _ => false

def successStep : Step → Bool
  | .readySuccess => true
  | _ => false

theorem mainloopRun_finishes (steps : List Step) (n frames : Nat)
    (hfat : ∀ s ∈ steps, fatalStep s = false)
    (hcnt : n ≤ (steps.filter successStep).length) :
    mainloopRun steps n frames = .finished (frames + n) := by
  match steps, n with
  | steps, 0 =>
      cases steps <;> simp [mainloopRun]
  | [], m + 1 => simp at hcnt
  | s :: rest, m + 1 =>
      have hfs := hfat s (by simp)
      have hfrest : ∀ t ∈ rest, fatalStep t = false :=
        fun t ht => hfat t (by simp [ht])
      cases s with
      | selEintr =>
          rw [mainloopRun]
          exact mainloopRun_finishes rest (m + 1) frames hfrest
            (by simpa [successStep, List.filter] using hcnt)
      | selErrOther => simp [fatalStep] at hfs
      | selTimeout => simp [fatalStep] at hfs
      | readyAgain =>
          rw [mainloopRun]
          exact mainloopRun_finishes rest (m + 1) frames hfrest
            (by simpa [successStep, List.filter] using hcnt)
      | readyEio =>
          rw [mainloopRun]
          exact mainloopRun_finishes rest (m + 1) frames hfrest
            (by simpa [successStep, List.filter] using hcnt)
      | readyErrOther => simp [fatalStep] at hfs
      | readySuccess =>
          rw [mainloopRun]
          have hrec := mainloopRun_finishes rest m (frames + 1) hfrest
            (by simp [successStep, List.filter] at hcnt ⊢; omega)
          rw [hrec]
          congr 1
          omega

/-- C5: for every run in which each readiness wait eventually reports a
ready descriptor and only finitely many transient not-ready dequeue
outcomes occur between successes (a finite trace containing no fatal
outcome and at least `n` successes), the acquisition loop terminates
after exactly `n` successfully processed frames, regardless of how many
transient iterations occur in between. -/
theorem mainloop_terminates_after_frame_count (steps : List Step) (n : Nat)
    (hfat : ∀ s ∈ steps, fatalStep s = false)
    (hcnt : n ≤ (steps.filter successStep).length) :
    mainloopRun steps n 0 = .finished n := by
  simpa using mainloopRun_finishes steps n 0 hfat hcnt

theorem mainloop_terminates_after_frame_count_witness :
    mainloopRun [.readyAgain, .selEintr, .readySuccess, .readyEio,
      .readySuccess, .readyAgain] 2 0 = .finished 2 :=
  mainloop_terminates_after_frame_count
    [.readyAgain, .selEintr, .readySuccess, .readyEio, .readySuccess, .readyAgain]
    2 (by decide) (by decide)

/-- C6: a dequeue reporting `EAGAIN` (temporarily no data) or `EIO`
(non-fatal driver I/O condition) is non-fatal: `read_frame` returns 0
with the state (frame counter, emitted files) untouched, and the
corresponding inner-loop iteration neither decrements the
remaining-frame counter nor breaks the wait/retry cycle; any other
dequeue failure terminates the process via `errno_exit`. -/
theorem dequeue_transient_outcomes (fmtTag : PixFmt) (rq : Bool)
    (st : CamState) (rest : List Step) (c f : Nat) :
    read_frame fmtTag .eagain rq st = (.no_frame, st) ∧
    read_frame fmtTag .eio rq st = (.no_frame, st) ∧
    read_frame fmtTag .err_other rq st = (.fatal_exit "VIDIOC_DQBUF", st) ∧
    mainloopRun (.readyAgain :: rest) (c + 1) f = mainloopRun rest (c + 1) f ∧
    mainloopRun (.readyEio :: rest) (c + 1) f = mainloopRun rest (c + 1) f ∧
    mainloopRun (.readyErrOther :: rest) (c + 1) f =
      .fatal "VIDIOC_DQBUF" EXIT_FAILURE f := by
  refine ⟨rfl, rfl, rfl, ?_, ?_, ?_⟩ <;> rw [mainloopRun]

/-- C7: in every iteration of the acquisition loop the readiness wait
uses the fixed 2-second timeout; a wait failing with `EINTR` is retried
with the loop state unchanged, a wait failing for any other reason is
fatal, and a wait timing out with zero ready descriptors is fatal — the
process exits with the non-zero status `EXIT_FAILURE` and the number of
written frames does not increase. -/
theorem select_wait_handling (rest : List Step) (c f : Nat) :
    select_timeout_sec = 2 ∧
    mainloopRun (.selEintr :: rest) (c + 1) f = mainloopRun rest (c + 1) f ∧
    mainloopRun (.selErrOther :: rest) (c + 1) f =
      .fatal "select" EXIT_FAILURE f ∧
    mainloopRun (.selTimeout :: rest) (c + 1) f =
      .fatal "select timeout" EXIT_FAILURE f ∧
    EXIT_FAILURE ≠ 0 := by
  refine ⟨rfl, ?_, ?_, ?_, by decide⟩ <;> rw [mainloopRun]

/-! ### `init_mmap` (capture.c lines 210–272)

`init_mmap` requests 6 buffers with `VIDIOC_REQBUFS`; an `EINVAL`
rejection means the device lacks memory-mapping support (fatal), any
other rejection is fatal via `errno_exit`.  A grant of fewer than 2
buffers is fatal ("Insufficient buffer memory").  Each granted buffer
is then queried (`VIDIOC_QUERYBUF`, fatal on failure) and mapped
(`mmap`, fatal on failure). -/

inductive ReqBufsResult
  | denied_einval
  | denied_other
  | granted (count : Nat)

inductive BufSetup
  | query_failed
  | map_failed
  | mapped (len : Nat)
deriving DecidableEq

inductive InitResult
  | fatal_exit (diag : String)
  | pool (lengths : List Nat)
deriving DecidableEq

/-- `req.count` as the code sets it before `VIDIOC_REQBUFS`. -/
def requested_buffer_count : Nat := 6

/-- The per-buffer loop of `init_mmap`: query and map buffers
`i, i+1, …` while `n` remain, accumulating the driver-assigned
lengths. -/
def map_buffers (setup : Nat → BufSetup) : Nat → Nat → List Nat → InitResult
  | 0, _, acc => .pool acc.reverse
  | n + 1, i, acc =>
      match setup i with
      | .query_failed => .fatal_exit "VIDIOC_QUERYBUF"
      | .map_failed => .fatal_exit "mmap"
      | .mapped len => map_buffers setup n (i + 1) (len :: acc)

def init_mmap (r : ReqBufsResult) (setup : Nat → BufSetup) : InitResult :=
  match r with
  | .denied_einval => .fatal_exit "does not support memory mapping"
  | .denied_other => .fatal_exit "VIDIOC_REQBUFS"
  | .granted c =>
      if c < 2 then .fatal_exit "Insufficient buffer memory"
      else map_buffers setup c 0 []

theorem map_buffers_pool_all_mapped (setup : Nat → BufSetup) (n : Nat) :
    ∀ i acc l, map_buffers setup n i acc = .pool l →
      ∀ k, k < n → ∃ len, setup (i + k) = .mapped len := by
  induction n with
  | zero => intro i acc l _ k hk; omega
  | succ m ih =>
      intro i acc l h k hk
      rw [map_buffers] at h
      cases hs : setup i with
      | query_failed => rw [hs] at h; exact absurd h (by simp)
      | map_failed => rw [hs] at h; exact absurd h (by simp)
      | mapped len =>
          rw [hs] at h
          cases k with
          | zero => exact ⟨len, by simpa using hs⟩
          | succ j =>
              have := ih (i + 1) (len :: acc) l h j (by omega)
              simpa [Nat.add_comm, Nat.add_assoc, Nat.add_left_comm] using this

/-- C8: buffer pool initialization requests 6 buffers and fails fatally
when the device grants fewer than 2, or when the buffer request is
rejected with `EINVAL` (the device lacks memory-mapped-I/O support);
a mapping failure for any granted buffer is also fatal (no pool is
ever returned). -/
theorem init_mmap_failure_modes (setup : Nat → BufSetup) :
    requested_buffer_count = 6 ∧
    (∀ c, c < 2 →
      init_mmap (.granted c) setup = .fatal_exit "Insufficient buffer memory") ∧
    init_mmap .denied_einval setup = .fatal_exit "does not support memory mapping" ∧
    (∀ c, (∃ i, i < c ∧ setup i = .map_failed) →
      ∀ l, init_mmap (.granted c) setup ≠ .pool l) := by
  refine ⟨rfl, ?_, rfl, ?_⟩
  · intro c hc
    simp only [init_mmap]
    rw [if_pos hc]
  · rintro c ⟨i, hic, hmf⟩ l h
    simp only [init_mmap] at h
    by_cases hc : c < 2
    · rw [if_pos hc] at h; exact absurd h (by simp)
    · rw [if_neg hc] at h
      obtain ⟨len, hlen⟩ :=
        map_buffers_pool_all_mapped setup c 0 [] l h i hic
      rw [Nat.zero_add] at hlen
      rw [hmf] at hlen
      exact absurd hlen (by simp)

theorem init_mmap_failure_modes_witness :
    init_mmap (.granted 1) (fun _ => .mapped 0) =
      .fatal_exit "Insufficient buffer memory" ∧
    init_mmap (.granted 2) (fun _ => .map_failed) ≠ .pool [] :=
  ⟨(init_mmap_failure_modes (fun _ => .mapped 0)).2.1 1 (by decide),
   (init_mmap_failure_modes (fun _ => .map_failed)).2.2.2 2
     ⟨0, by decide, rfl⟩ []⟩

/-! ### The `dump_ppm` write loop (capture.c lines 453–461)

The emission loop is
`do { written = write(dumpfd, p, size); total += written; }
while (total < size);`.
It is driven by the stream `rets` of values returned by the successive
`write` calls.  There is no check of `written` and no exit other than
the `total < size` test; we observe the loop for `fuel` iterations:
`some total` when it has exited, `none` while it is still running. -/

def writeLoop (rets : Nat → Int) (size : Int) : Nat → Int → Nat → Option Int
  | 0, _, _ => none
  | fuel + 1, total, k =>
      if total + rets k < size then writeLoop rets size fuel (total + rets k) (k + 1)
      else some (total + rets k)

def dumpWriteLoop (rets : Nat → Int) (size : Int) (fuel : Nat) : Option Int :=
  writeLoop rets size fuel 0 0

/-- The emission loop never exits on this return stream, however many
iterations are observed. -/
def writeLoopNeverExits (rets : Nat → Int) (size : Int) : Prop :=
  ∀ fuel, dumpWriteLoop rets size fuel = none

theorem writeLoop_zero_stuck (fuel : Nat) :
    ∀ total k, total < 1 → writeLoop (fun _ => 0) 1 fuel total k = none := by
  induction fuel with
  | zero => intro total k _; rfl
  | succ m ih =>
      intro total k h
      rw [writeLoop]
      rw [if_pos (by simpa using h)]
      exact ih (total + 0) (k + 1) (by omega)

theorem writeLoop_some_not_lt (rets : Nat → Int) (size : Int) (fuel : Nat) :
    ∀ total k t, writeLoop rets size fuel total k = some t → ¬ t < size := by
  induction fuel with
  | zero => intro total k t h; exact absurd h (by simp [writeLoop])
  | succ m ih =>
      intro total k t h
      rw [writeLoop] at h
      by_cases hc : total + rets k < size
      · rw [if_pos hc] at h
        exact ih (total + rets k) (k + 1) t h
      · rw [if_neg hc] at h
        simp only [Option.some.injEq] at h
        subst h
        exact hc

/-- C4 (counterexample): with a 1-byte payload and every `write` call
returning 0 — no further progress possible — the emission loop never
exits: it neither completes the write nor terminates the process with a
diagnostic, contradicting the claim that this condition is fatal. -/
theorem write_retry_no_progress_loops :
    ¬ ∃ fuel total, dumpWriteLoop (fun _ => 0) 1 fuel = some total := by
  rintro ⟨fuel, total, h⟩
  rw [dumpWriteLoop, writeLoop_zero_stuck fuel 0 0 (by decide)] at h
  exact absurd h (by simp)

/-- C4 (amended): during artifact emission a short write is retried,
the loop exiting only once the accumulated `write` return values reach
the payload size; when no further progress is possible the loop does
not terminate — there is no fatal exit (the code loops forever rather
than terminating with a diagnostic). -/
theorem write_retry_semantics :
    (∀ rets size fuel total, dumpWriteLoop rets size fuel = some total →
      ¬ total < size) ∧
    writeLoopNeverExits (fun _ => 0) 1 := by
  constructor
  · intro rets size fuel total h
    exact writeLoop_some_not_lt rets size fuel 0 0 total h
  · intro fuel
    exact writeLoop_zero_stuck fuel 0 0 (by decide)

theorem write_retry_semantics_witness :
    ¬ (5 : Int) < 5 :=
  write_retry_semantics.1 (fun _ => 5) 5 1 5 (by decide)

end Capture
